import Mathlib

/-!
Shallow embedding of helloSystem/elfsize (src/main.go) in Lean 4.

The program reads an ELF file and prints
`section_header_offset + section_header_entry_size * section_header_entry_count`
computed in Go int64 arithmetic, returning the sentinel 0 on every failure
path.  File contents are modelled as `List Nat` (one byte per element);
the I/O outcomes that do not depend on the byte contents (os.Open failing,
f.Stat failing, and the portion of Go's debug/elf NewFile that parses the
program/section header tables) are modelled as explicit Bool parameters.
-/

/-- Go two's-complement int64 normalisation: 9223372036854775808 = 2^63 and
18446744073709551616 = 2^64.  `wrap64 x` is the int64 value whose residue
mod 2^64 equals x. -/
def wrap64 (x : Int) : Int :=
  (x + 9223372036854775808) % 18446744073709551616 - 9223372036854775808

/-- Go conversion `int64(u)` of an unsigned value held as a Nat. -/
def i64 (n : Nat) : Int := wrap64 n

/-- Go int64 addition (wrapping). -/
def i64add (a b : Int) : Int := wrap64 (a + b)

/-- Go int64 multiplication (wrapping). -/
def i64mul (a b : Int) : Int := wrap64 (a * b)

/-- The arithmetic of src/main.go line 194:
`elfsize := shoff + (shentsize * shnum)` where
`shoff = int64(hdr.Shoff)`, `shentsize = int64(hdr.Shentsize)`,
`shnum = int64(hdr.Shnum)` (lines 169-171 resp. 185-187). -/
def elfSizeCalc (shoff shentsize shnum : Nat) : Int :=
  i64add (i64 shoff) (i64mul (i64 shentsize) (i64 shnum))

/-- Go `ReadAt(buf[0:n], off)` on a file holding `src`: succeeds with the
n bytes at offset off exactly when the file is long enough, otherwise the
read is short and returns an error (io.EOF). -/
def readAt (src : List Nat) (off n : Nat) : Option (List Nat) :=
  if off + n ≤ src.length then some ((src.drop off).take n) else none

/-- The ELF magic bytes 0x7f 'E' 'L' 'F'. -/
def elfMagic : List Nat := [0x7f, 0x45, 0x4c, 0x46]

/-- The magic test of src/main.go lines 144-147 (and the identical test at
the start of Go's debug/elf NewFile):
`ident[0] != 0x7f || ident[1] != 'E' || ident[2] != 'L' || ident[3] != 'F'`
negated. -/
def identMagicOk (ident : List Nat) : Bool :=
  (ident.getD 0 0 == 0x7f) && (ident.getD 1 0 == 0x45) &&
  (ident.getD 2 0 == 0x4c) && (ident.getD 3 0 == 0x46)

/-- Endianness selected by debug/elf NewFile from ident byte 5. -/
inductive ByteOrder where
  | little
  | big
deriving DecidableEq, Repr

/-- The failure paths of CalculateElfSize, in the order the Go code can
take them.  The `nf` constructors are the errors of Go's debug/elf NewFile
that arise from the 16 identifier bytes; `nfRestFailed` stands for any
failure of the remainder of NewFile's parsing (header sanity checks and
program/section table reads), which this embedding abstracts by a Bool. -/
inductive ElfErr where
  | openFailed
  | statFailed
  | nfShortIdent
  | nfBadMagic
  | nfUnknownClass
  | nfUnknownData
  | nfUnknownVersion
  | nfRestFailed
  | identReadFailed
  | badMagic
  | headerReadFailed
  | unsupportedArch
deriving DecidableEq, Repr

/-- The identifier validation done by Go's debug/elf NewFile before any
header field is decoded: read 16 bytes at offset 0 (error if short), check
the magic, the class byte (ident[4] must be 1 or 2), the data-encoding
byte (ident[5] must be 1 = little or 2 = big endian) and the version byte
(ident[6] must be 1).  Returns the class byte and the byte order. -/
def newFileIdent (src : List Nat) : Except ElfErr (Nat × ByteOrder) :=
  match readAt src 0 16 with
  | none => Except.error ElfErr.nfShortIdent
  | some ident =>
    if identMagicOk ident = false then Except.error ElfErr.nfBadMagic
    else if ident.getD 4 0 ≠ 1 ∧ ident.getD 4 0 ≠ 2 then
      Except.error ElfErr.nfUnknownClass
    else
      match (if ident.getD 5 0 = 1 then some ByteOrder.little
             else if ident.getD 5 0 = 2 then some ByteOrder.big
             else none) with
      | none => Except.error ElfErr.nfUnknownData
      | some bo =>
        if ident.getD 6 0 ≠ 1 then Except.error ElfErr.nfUnknownVersion
        else Except.ok (ident.getD 4 0, bo)

/-- Go's `elf.NewFile` as used by CalculateElfSize (src/main.go line 129):
the identifier checks are modelled byte for byte; the remainder of
NewFile's work (full header decode with version cross-check, shoff/phoff
sanity checks, program and section table parsing) is abstracted by the
`restOk` parameter, since CalculateElfSize only consumes `e.Class` and
`e.ByteOrder` from the result and returns 0 whenever NewFile errors. -/
def newFileModel (restOk : Bool) (src : List Nat) : Except ElfErr (Nat × ByteOrder) :=
  match newFileIdent src with
  | Except.error e => Except.error e
  | Except.ok cb => if restOk then Except.ok cb else Except.error ElfErr.nfRestFailed

/-- The first sanity check of the post-identifier part of Go's debug/elf
NewFile (part of what `restOk` abstracts): NewFile converts the decoded
section-header offset with `shoff = int64(hdr.Shoff)` and rejects the
file with the "invalid shoff" format error when that int64 is negative,
i.e. when the unsigned field is at least 2^63.  NewFile can therefore
only succeed (restOk = true) on inputs where this check passes. -/
def newFileShoffOk (sh : Nat) : Bool :=
  decide (0 ≤ i64 sh)

/-- Little-endian byte decoding (binary.LittleEndian). -/
def decodeLE : List Nat → Nat
  | [] => 0
  | b :: rest => b + 256 * decodeLE rest

/-- Field bytes in little-endian order for the given byte order
(binary.BigEndian reads the same bytes most-significant first). -/
def fieldBytes : ByteOrder → List Nat → List Nat
  | ByteOrder.little, bs => bs
  | ByteOrder.big, bs => bs.reverse

/-- Decode one fixed-width integer field with the detected byte order. -/
def decodeField (bo : ByteOrder) (bs : List Nat) : Nat := decodeLE (fieldBytes bo bs)

/-- The n bytes of `src` starting at offset `off`. -/
def bytesAt (src : List Nat) (off n : Nat) : List Nat := (src.drop off).take n

/-- `binary.Read(sr, bo, new(elf.Header64))` of src/main.go lines 157-171,
reduced to the three fields the function keeps: elf.Header64 is 64 bytes,
with Shoff (uint64) at offset 40, Shentsize (uint16) at offset 58 and
Shnum (uint16) at offset 60.  The read fails when fewer than 64 bytes are
available.  Result is (Shoff, Shentsize, Shnum). -/
def headerFields64 (src : List Nat) (bo : ByteOrder) : Option (Nat × Nat × Nat) :=
  if 64 ≤ src.length then
    some (decodeField bo (bytesAt src 40 8),
          decodeField bo (bytesAt src 58 2),
          decodeField bo (bytesAt src 60 2))
  else none

/-- `binary.Read(sr, bo, new(elf.Header32))` of src/main.go lines 172-187:
elf.Header32 is 52 bytes, with Shoff (uint32) at offset 32, Shentsize
(uint16) at offset 46 and Shnum (uint16) at offset 48.  Result is
(Shoff, Shentsize, Shnum). -/
def headerFields32 (src : List Nat) (bo : ByteOrder) : Option (Nat × Nat × Nat) :=
  if 52 ≤ src.length then
    some (decodeField bo (bytesAt src 32 4),
          decodeField bo (bytesAt src 46 2),
          decodeField bo (bytesAt src 48 2))
  else none

/-- The header fields CalculateElfSize decodes for a given class byte:
class 2 selects the 64-bit layout, class 1 the 32-bit layout (the order
of the cases matches the switch of src/main.go lines 155-191). -/
def headerFieldsOf (src : List Nat) (cls : Nat) (bo : ByteOrder) : Option (Nat × Nat × Nat) :=
  if cls = 2 then headerFields64 src bo
  else if cls = 1 then headerFields32 src bo
  else none

/-- CalculateElfSize of src/main.go lines 112-197, translated failure site
by failure site but with each `return 0` tagged by which failure occurred
(the diagnostic the Go code prints there).  `openOk` models os.Open
succeeding, `statOk` models f.Stat succeeding, `restOk` is the NewFile
abstraction of `newFileModel`. -/
def calculateElfSizeE (openOk statOk restOk : Bool) (src : List Nat) : Except ElfErr Int :=
  if openOk = false then Except.error ElfErr.openFailed
  else if statOk = false then Except.error ElfErr.statFailed
  else
    match newFileModel restOk src with
    | Except.error e => Except.error e
    | Except.ok (cls, bo) =>
      match readAt src 0 16 with
      | none => Except.error ElfErr.identReadFailed
      | some ident =>
        if identMagicOk ident = false then Except.error ElfErr.badMagic
        else if cls = 2 then
          match headerFields64 src bo with
          | none => Except.error ElfErr.headerReadFailed
          | some (sh, es, n) => Except.ok (elfSizeCalc sh es n)
        else if cls = 1 then
          match headerFields32 src bo with
          | none => Except.error ElfErr.headerReadFailed
          | some (sh, es, n) => Except.ok (elfSizeCalc sh es n)
        else Except.error ElfErr.unsupportedArch

/-- CalculateElfSize exactly as the Go function behaves at its int64
return value: every failure path returns the sentinel 0 (src/main.go
lines 120, 126, 132, 140, 149, 161, 166, 177, 182, 190), the success path
returns `shoff + (shentsize * shnum)` (line 194). -/
def CalculateElfSize (openOk statOk restOk : Bool) (src : List Nat) : Int :=
  if openOk = false then 0
  else if statOk = false then 0
  else
    match newFileModel restOk src with
    | Except.error _ => 0
    | Except.ok (cls, bo) =>
      match readAt src 0 16 with
      | none => 0
      | some ident =>
        if identMagicOk ident = false then 0
        else if cls = 2 then
          match headerFields64 src bo with
          | none => 0
          | some (sh, es, n) => elfSizeCalc sh es n
        else if cls = 1 then
          match headerFields32 src bo with
          | none => 0
          | some (sh, es, n) => elfSizeCalc sh es n
        else 0

/-- A Go error value as far as this program inspects one: os.IsNotExist
distinguishes the not-exist error from every other error. -/
inductive GoError where
  | notExist
  | other
deriving DecidableEq, Repr

/-- The os.FileInfo fields fileExists uses. -/
structure GoFileInfo where
  isDir : Bool
deriving DecidableEq, Repr

/-- The outcome of the os.Stat call in fileExists (src/main.go line 33). -/
inductive StatOutcome where
  | ok (info : GoFileInfo)
  | errNotExist
  | errOther
deriving DecidableEq, Repr

/-- The (info, err) pair os.Stat returns: in Go, info is nil exactly when
an error is returned. -/
def statPair : StatOutcome → Option GoFileInfo × Option GoError
  | StatOutcome.ok info => (some info, none)
  | StatOutcome.errNotExist => (none, some GoError.notExist)
  | StatOutcome.errOther => (none, some GoError.other)

/-- os.IsNotExist(err). -/
def isNotExist : Option GoError → Bool
  | some GoError.notExist => true
  | _ => false

/-- The method call `info.IsDir()`: on a nil receiver (info absent) the Go
program panics with a nil pointer dereference, modelled as none. -/
def isDirCall : Option GoFileInfo → Option Bool
  | none => none
  | some info => some info.isDir

/-- fileExists of src/main.go lines 32-38: stat, return false when the
error is a not-exist error, otherwise return `!info.IsDir()`.  The result
is none when that last call panics (info nil because os.Stat returned an
error that os.IsNotExist does not recognise). -/
def fileExists (st : StatOutcome) : Option Bool :=
  let p := statPair st
  if isNotExist p.2 = true then some false
  else Option.map (fun d => !d) (isDirCall p.1)

/-- The three stderr lines printed by src/main.go lines 17-19 when no path
argument is given (argv0 substituted for the %s verb). -/
def usageLines (argv0 : String) : List String :=
  ["USAGE: " ++ argv0 ++ " <path to ELF file>",
   "    Print the size of an ELF file in bytes",
   "    based on the information in the ELF header"]

/-- Observable outcome of one run of main. -/
inductive MainOutcome where
  | usage (stderrLines : List String) (exitCode : Nat)
  | noExist (stderrLine : String) (exitCode : Nat)
  | prints (value : Int)
  | panicked
deriving DecidableEq, Repr

/-- main of src/main.go lines 15-30: usage check on the argument count,
fileExists check (whose panic propagates), then print the computed size.
`args` is os.Args (program name first); the stat and I/O outcomes are the
same abstract parameters as in the CalculateElfSize model. -/
def goMain (args : List String) (st : StatOutcome)
    (openOk statOk restOk : Bool) (src : List Nat) : MainOutcome :=
  if args.length < 2 then MainOutcome.usage (usageLines (args.getD 0 "")) 1
  else
    match fileExists st with
    | none => MainOutcome.panicked
    | some ex =>
      if ex ≠ true then
        MainOutcome.noExist ((args.getD 1 "") ++ " does not exist, exiting") 1
      else MainOutcome.prints (CalculateElfSize openOk statOk restOk src)

/-- An ELF section as the accessor functions see it: its header fields
Offset and Size and the outcome of section.Data(). -/
structure ElfSection where
  offset : Nat
  size : Nat
  dataRes : Except GoError (List Nat)
deriving Repr

/-- The parsed elf.File as the accessor functions use it: the named
sections in file order. -/
structure ElfFileModel where
  sections : List (String × ElfSection)
deriving Repr

/-- f.Section(name): the first section with the given name, or nil. -/
def sectionByName (f : ElfFileModel) (name : String) : Option ElfSection :=
  Option.map (fun p => p.2) (f.sections.find? (fun p => p.1 == name))

/-- GetSectionData of src/main.go lines 48-67.  `openRes` is the combined
outcome of os.Open plus elf.NewFile (the open error itself is ignored by
the Go code, but a nil file makes elf.NewFile fail).  Result is the Go
([]byte, error) pair, nil values as none. -/
def GetSectionData (openRes : Except GoError ElfFileModel) (name : String) :
    Option (List Nat) × Option GoError :=
  match openRes with
  | Except.error e => (none, some e)
  | Except.ok f =>
    match sectionByName f name with
    | none => (none, none)
    | some s =>
      match s.dataRes with
      | Except.error e => (none, some e)
      | Except.ok d => (some d, none)

/-- GetSectionOffsetAndLength of src/main.go lines 70-84: the Go
(uint64, uint64, error) triple, with (0, 0, nil) when the section is
missing and (section.Offset, section.Size, nil) when present. -/
def GetSectionOffsetAndLength (openRes : Except GoError ElfFileModel) (name : String) :
    Nat × Nat × Option GoError :=
  match openRes with
  | Except.error e => (0, 0, some e)
  | Except.ok f =>
    match sectionByName f name with
    | none => (0, 0, none)
    | some s => (s.offset, s.size, none)

/-- A 64-byte little-endian ELF64 header with Shoff = 0x1000,
Shentsize = 0x40, Shnum = 5 (the synthetic header of the class-dispatch
property). -/
def srcHdr64 : List Nat :=
  [0x7f, 0x45, 0x4c, 0x46, 2, 1, 1, 0, 0, 0, 0, 0, 0, 0, 0, 0] ++
  [0, 0, 0, 0] ++ [1, 0, 0, 0] ++
  List.replicate 8 0 ++ List.replicate 8 0 ++
  [0x00, 0x10, 0, 0, 0, 0, 0, 0] ++
  [0, 0, 0, 0] ++ [0, 0] ++ [0, 0] ++ [0, 0] ++
  [0x40, 0] ++ [5, 0] ++ [0, 0]

/-- A 52-byte little-endian ELF32 header with Shoff = 0xFFFF0000,
Shentsize = 0x28, Shnum = 2 (the synthetic header of the 32-bit widening
property). -/
def srcHdr32 : List Nat :=
  [0x7f, 0x45, 0x4c, 0x46, 1, 1, 1, 0, 0, 0, 0, 0, 0, 0, 0, 0] ++
  [0, 0, 0, 0] ++ [1, 0, 0, 0] ++
  [0, 0, 0, 0] ++ [0, 0, 0, 0] ++
  [0x00, 0x00, 0xFF, 0xFF] ++
  [0, 0, 0, 0] ++ [0, 0] ++ [0, 0] ++ [0, 0] ++
  [0x28, 0] ++ [2, 0] ++ [0, 0]

/-- A 64-byte little-endian ELF64 header with Shoff = 0xFFFFFFFFFFFFFFFF
(all ones), Shentsize = 0x40, Shnum = 5: the mathematical size
0xFFFFFFFFFFFFFFFF + 0x140 exceeds the 64-bit range. -/
def srcHdr64Overflow : List Nat :=
  [0x7f, 0x45, 0x4c, 0x46, 2, 1, 1, 0, 0, 0, 0, 0, 0, 0, 0, 0] ++
  [0, 0, 0, 0] ++ [1, 0, 0, 0] ++
  List.replicate 8 0 ++ List.replicate 8 0 ++
  List.replicate 8 0xFF ++
  [0, 0, 0, 0] ++ [0, 0] ++ [0, 0] ++ [0, 0] ++
  [0x40, 0] ++ [5, 0] ++ [0, 0]

/-- A 64-byte little-endian ELF64 header with Shoff = 0x200,
Shentsize = 0x40 and Shnum = 0 (zero section header entries). -/
def srcHdr64ZeroCount : List Nat :=
  [0x7f, 0x45, 0x4c, 0x46, 2, 1, 1, 0, 0, 0, 0, 0, 0, 0, 0, 0] ++
  [0, 0, 0, 0] ++ [1, 0, 0, 0] ++
  List.replicate 8 0 ++ List.replicate 8 0 ++
  [0x00, 0x02, 0, 0, 0, 0, 0, 0] ++
  [0, 0, 0, 0] ++ [0, 0] ++ [0, 0] ++ [0, 0] ++
  [0x40, 0] ++ [0, 0] ++ [0, 0]

theorem wrap64_mod (x : Int) :
    wrap64 x % 18446744073709551616 = x % 18446744073709551616 := by
  unfold wrap64; omega

theorem wrap64_congr (x y : Int)
    (h : x % 18446744073709551616 = y % 18446744073709551616) :
    wrap64 x = wrap64 y := by
  unfold wrap64; omega

theorem wrap64_small (n : Nat) (h : (n : Int) < 9223372036854775808) :
    wrap64 (n : Int) = n := by
  unfold wrap64; omega

/-- The int64 combination the Go code computes agrees, up to one final
two's-complement normalisation, with the exact natural-number value
`shoff + shentsize * shnum`. -/
theorem elfSizeCalc_eq_wrap (sh es n : Nat) :
    elfSizeCalc sh es n = wrap64 ((sh : Int) + (es : Int) * (n : Int)) := by
  unfold elfSizeCalc i64add i64mul i64
  apply wrap64_congr
  conv_lhs => rw [Int.add_emod, wrap64_mod, wrap64_mod]
  conv_rhs => rw [Int.add_emod]
  rw [Int.mul_emod (wrap64 (es : Int)), wrap64_mod, wrap64_mod, ← Int.mul_emod]

theorem readAt_16 (src : List Nat) (h : 16 ≤ src.length) :
    readAt src 0 16 = some (src.take 16) := by
  simp [readAt, h]

theorem getD_take16 (src : List Nat) (i : Nat) (h : i < 16) :
    (src.take 16).getD i 0 = src.getD i 0 := by
  rw [List.getD_eq_getElem?_getD, List.getD_eq_getElem?_getD,
    List.getElem?_take, if_pos h]

/-- The magic test on the 16 identifier bytes coincides with comparing
the first four bytes of the file with the ELF magic. -/
theorem identMagicOk_iff (src : List Nat) (h : 4 ≤ src.length) :
    identMagicOk (src.take 16) = true ↔ src.take 4 = elfMagic := by
  rcases src with _ | ⟨a, _ | ⟨b, _ | ⟨c, _ | ⟨d, t⟩⟩⟩⟩ <;> simp_all
  constructor
  · intro hm
    simp [identMagicOk, List.getD] at hm
    simp [elfMagic, hm]
  · intro hm
    simp [elfMagic] at hm
    simp [identMagicOk, List.getD, hm]

/-- Under the identifier hypotheses (magic, class byte 1 or 2, a matching
byte order, version byte 1, 16 bytes readable), the NewFile identifier
validation succeeds with the class byte and byte order. -/
theorem newFileIdent_eval (src : List Nat) (cls : Nat) (bo : ByteOrder)
    (hlen : 16 ≤ src.length)
    (hm : identMagicOk (src.take 16) = true)
    (hcls : src.getD 4 0 = cls) (hc : cls = 1 ∨ cls = 2)
    (hd : (src.getD 5 0 = 1 ∧ bo = ByteOrder.little) ∨
          (src.getD 5 0 = 2 ∧ bo = ByteOrder.big))
    (hv : src.getD 6 0 = 1) :
    newFileIdent src = Except.ok (cls, bo) := by
  have e4 : src[4]?.getD 0 = cls := by
    rw [← List.getD_eq_getElem?_getD]; exact hcls
  have e5 : src[5]?.getD 0 = src.getD 5 0 := (List.getD_eq_getElem?_getD src 5 0).symm
  have e6 : src[6]?.getD 0 = 1 := by
    rw [← List.getD_eq_getElem?_getD]; exact hv
  unfold newFileIdent
  rw [readAt_16 src hlen]
  rcases hd with ⟨h5, rfl⟩ | ⟨h5, rfl⟩ <;> rw [h5] at e5 <;>
    rcases hc with rfl | rfl <;> simp [hm, e4, e5, e6]

/-- Forward evaluation of both translations of CalculateElfSize on a
well-formed input: the tagged version succeeds with the int64 combination
of the decoded fields, and the sentinel version returns that value. -/
theorem calcSize_eval (src : List Nat) (cls : Nat) (bo : ByteOrder) (sh es n : Nat)
    (hlen : 16 ≤ src.length)
    (hm : identMagicOk (src.take 16) = true)
    (hcls : src.getD 4 0 = cls) (hc : cls = 1 ∨ cls = 2)
    (hd : (src.getD 5 0 = 1 ∧ bo = ByteOrder.little) ∨
          (src.getD 5 0 = 2 ∧ bo = ByteOrder.big))
    (hv : src.getD 6 0 = 1)
    (hf : headerFieldsOf src cls bo = some (sh, es, n)) :
    calculateElfSizeE true true true src = Except.ok (elfSizeCalc sh es n) ∧
    CalculateElfSize true true true src = elfSizeCalc sh es n := by
  have hident := newFileIdent_eval src cls bo hlen hm hcls hc hd hv
  have hnf : newFileModel true src = Except.ok (cls, bo) := by
    unfold newFileModel; rw [hident]; rfl
  unfold headerFieldsOf at hf
  rcases hc with rfl | rfl
  · rw [if_neg (by decide), if_pos rfl] at hf
    constructor
    · simp [calculateElfSizeE, hnf, readAt_16 src hlen, hm, hf]
    · simp [CalculateElfSize, hnf, readAt_16 src hlen, hm, hf]
  · rw [if_pos rfl] at hf
    constructor
    · simp [calculateElfSizeE, hnf, readAt_16 src hlen, hm, hf]
    · simp [CalculateElfSize, hnf, readAt_16 src hlen, hm, hf]

/-- Claim C1: for every well-formed ELF input (valid magic, supported
class and byte order, current version byte, full header readable), the
size returned by CalculateElfSize equals
section_header_offset + section_header_entry_size * section_header_entry_count
computed in 64-bit (Go int64) arithmetic on the decoded header fields. -/
theorem claim1_size_formula (src : List Nat) (cls : Nat) (bo : ByteOrder) (sh es n : Nat)
    (hlen : 16 ≤ src.length)
    (hm : identMagicOk (src.take 16) = true)
    (hcls : src.getD 4 0 = cls) (hc : cls = 1 ∨ cls = 2)
    (hd : (src.getD 5 0 = 1 ∧ bo = ByteOrder.little) ∨
          (src.getD 5 0 = 2 ∧ bo = ByteOrder.big))
    (hv : src.getD 6 0 = 1)
    (hf : headerFieldsOf src cls bo = some (sh, es, n)) :
    CalculateElfSize true true true src = elfSizeCalc sh es n :=
  (calcSize_eval src cls bo sh es n hlen hm hcls hc hd hv hf).2

/-- Witness for C1: on the synthetic 64-bit header with Shoff = 0x1000,
Shentsize = 0x40, Shnum = 5 the returned size is 4416. -/
theorem claim1_size_formula_witness :
    CalculateElfSize true true true srcHdr64 = 4416 := by
  have h := claim1_size_formula srcHdr64 2 ByteOrder.little 4096 64 5
    (by decide) (by decide) (by decide) (Or.inr rfl)
    (Or.inl ⟨by decide, rfl⟩) (by decide) (by decide)
  rw [h]; decide

/-- Claim C3: for the synthetic 32-bit-class little-endian header with
Shoff = 0xFFFF0000, Shentsize = 0x28, Shnum = 2, the fields decode to
those values and the computed size is exactly 0xFFFF0050 = 4294901840:
the 32-bit and 16-bit fields are widened to 64 bits before the addition
and multiplication, so no 32-bit truncation of the result occurs. -/
theorem claim3_widening32 :
    headerFields32 srcHdr32 ByteOrder.little = some (0xFFFF0000, 0x28, 2) ∧
    CalculateElfSize true true true srcHdr32 = 0xFFFF0050 := by
  constructor
  · decide
  · decide

/-- Claim C4: for every well-formed header whose
section_header_entry_count is 0, the computed size is exactly the decoded
section_header_offset (as the int64 the code converts it to); in
particular, whenever the offset fits below 2^63 — which includes offset 0,
giving size 0 — the size equals the offset as a natural number, with no
special-casing and no multiplication artifact. -/
theorem claim4_zero_shnum (src : List Nat) (cls : Nat) (bo : ByteOrder) (sh es : Nat)
    (hlen : 16 ≤ src.length)
    (hm : identMagicOk (src.take 16) = true)
    (hcls : src.getD 4 0 = cls) (hc : cls = 1 ∨ cls = 2)
    (hd : (src.getD 5 0 = 1 ∧ bo = ByteOrder.little) ∨
          (src.getD 5 0 = 2 ∧ bo = ByteOrder.big))
    (hv : src.getD 6 0 = 1)
    (hf : headerFieldsOf src cls bo = some (sh, es, 0)) :
    CalculateElfSize true true true src = wrap64 (sh : Int) ∧
    ((sh : Int) < 9223372036854775808 → CalculateElfSize true true true src = sh) := by
  have h2 := (calcSize_eval src cls bo sh es 0 hlen hm hcls hc hd hv hf).2
  have h3 : elfSizeCalc sh es 0 = wrap64 (sh : Int) := by
    rw [elfSizeCalc_eq_wrap]; norm_num
  refine ⟨by rw [h2, h3], fun hlt => by rw [h2, h3, wrap64_small sh hlt]⟩

/-- Witness for C4: a 64-bit header with Shoff = 0x200 and Shnum = 0
(entry size 0x40) yields exactly 512 = 0x200. -/
theorem claim4_zero_shnum_witness :
    CalculateElfSize true true true srcHdr64ZeroCount = 512 := by
  have h := (claim4_zero_shnum srcHdr64ZeroCount 2 ByteOrder.little 512 64
    (by decide) (by decide) (by decide) (Or.inr rfl)
    (Or.inl ⟨by decide, rfl⟩) (by decide) (by decide)).2 (by decide)
  simpa using h

/-- A little-endian byte list with in-range bytes decodes below
256 to the power of its length. -/
theorem decodeLE_lt (bs : List Nat) (h : ∀ b ∈ bs, b < 256) :
    decodeLE bs < 256 ^ bs.length := by
  induction bs with
  | nil => simp [decodeLE]
  | cons b rest ih =>
    have hb : b < 256 := h b (by simp)
    have hr : decodeLE rest < 256 ^ rest.length :=
      ih (fun x hx => h x (by simp [hx]))
    simp only [decodeLE, List.length_cons]
    rw [pow_succ]
    set K := 256 ^ rest.length with hK
    omega

/-- Either byte order decodes an in-range byte list below 256 to the
power of its length. -/
theorem decodeField_lt_of_mem (bo : ByteOrder) (bs : List Nat)
    (h : ∀ b ∈ bs, b < 256) :
    decodeField bo bs < 256 ^ bs.length := by
  cases bo with
  | little => exact decodeLE_lt bs h
  | big =>
    have hrev : ∀ b ∈ bs.reverse, b < 256 := fun b hb => h b (List.mem_reverse.mp hb)
    simpa [decodeField, fieldBytes] using decodeLE_lt bs.reverse hrev

/-- A k-byte field sliced from an in-range source decodes below 256^k. -/
theorem decodeField_bytesAt_lt (bo : ByteOrder) (src : List Nat) (off k : Nat)
    (hbytes : ∀ b ∈ src, b < 256) :
    decodeField bo (bytesAt src off k) < 256 ^ k := by
  have hmem : ∀ b ∈ bytesAt src off k, b < 256 := by
    intro b hb
    simp only [bytesAt] at hb
    exact hbytes b (List.mem_of_mem_drop (List.mem_of_mem_take hb))
  have hlen : (bytesAt src off k).length ≤ k := by
    simp [bytesAt]
  calc decodeField bo (bytesAt src off k)
      < 256 ^ (bytesAt src off k).length := decodeField_lt_of_mem bo _ hmem
    _ ≤ 256 ^ k := Nat.pow_le_pow_right (by omega) hlen

/-- On an in-range source the decoded ELF64 fields are bounded by their
widths: Shoff below 2^64, Shentsize and Shnum below 2^16. -/
theorem headerFields64_bounds (src : List Nat) (bo : ByteOrder) (sh es n : Nat)
    (hbytes : ∀ b ∈ src, b < 256)
    (hf : headerFields64 src bo = some (sh, es, n)) :
    sh < 18446744073709551616 ∧ es < 65536 ∧ n < 65536 := by
  unfold headerFields64 at hf
  split at hf
  · simp only [Option.some.injEq, Prod.mk.injEq] at hf
    obtain ⟨h1, h2, h3⟩ := hf
    refine ⟨?_, ?_, ?_⟩
    · rw [← h1]
      have := decodeField_bytesAt_lt bo src 40 8 hbytes
      calc decodeField bo (bytesAt src 40 8) < 256 ^ 8 := this
        _ = 18446744073709551616 := by norm_num
    · rw [← h2]
      have := decodeField_bytesAt_lt bo src 58 2 hbytes
      calc decodeField bo (bytesAt src 58 2) < 256 ^ 2 := this
        _ = 65536 := by norm_num
    · rw [← h3]
      have := decodeField_bytesAt_lt bo src 60 2 hbytes
      calc decodeField bo (bytesAt src 60 2) < 256 ^ 2 := this
        _ = 65536 := by norm_num
  · cases hf

/-- On an in-range source the decoded ELF32 fields are bounded by their
widths: Shoff below 2^32, Shentsize and Shnum below 2^16. -/
theorem headerFields32_bounds (src : List Nat) (bo : ByteOrder) (sh es n : Nat)
    (hbytes : ∀ b ∈ src, b < 256)
    (hf : headerFields32 src bo = some (sh, es, n)) :
    sh < 4294967296 ∧ es < 65536 ∧ n < 65536 := by
  unfold headerFields32 at hf
  split at hf
  · simp only [Option.some.injEq, Prod.mk.injEq] at hf
    obtain ⟨h1, h2, h3⟩ := hf
    refine ⟨?_, ?_, ?_⟩
    · rw [← h1]
      have := decodeField_bytesAt_lt bo src 32 4 hbytes
      calc decodeField bo (bytesAt src 32 4) < 256 ^ 4 := this
        _ = 4294967296 := by norm_num
    · rw [← h2]
      have := decodeField_bytesAt_lt bo src 46 2 hbytes
      calc decodeField bo (bytesAt src 46 2) < 256 ^ 2 := this
        _ = 65536 := by norm_num
    · rw [← h3]
      have := decodeField_bytesAt_lt bo src 48 2 hbytes
      calc decodeField bo (bytesAt src 48 2) < 256 ^ 2 := this
        _ = 65536 := by norm_num
  · cases hf

/-- When the abstracted remainder of elf.NewFile fails (restOk = false),
CalculateElfSize never reaches the size arithmetic: it fails with some
error and returns the sentinel 0, whatever the other outcomes. -/
theorem restOk_false_fails (o s : Bool) (src : List Nat) :
    (∃ e, calculateElfSizeE o s false src = Except.error e) ∧
    CalculateElfSize o s false src = 0 := by
  by_cases ho : o = false
  · exact ⟨⟨ElfErr.openFailed, by simp [calculateElfSizeE, ho]⟩,
      by simp [CalculateElfSize, ho]⟩
  · by_cases hs : s = false
    · exact ⟨⟨ElfErr.statFailed, by simp [calculateElfSizeE, ho, hs]⟩,
        by simp [CalculateElfSize, ho, hs]⟩
    · cases hn : newFileIdent src with
      | error e =>
        exact ⟨⟨e, by simp [calculateElfSizeE, newFileModel, ho, hs, hn]⟩,
          by simp [CalculateElfSize, newFileModel, ho, hs, hn]⟩
      | ok cb =>
        exact ⟨⟨ElfErr.nfRestFailed,
            by simp [calculateElfSizeE, newFileModel, ho, hs, hn]⟩,
          by simp [CalculateElfSize, newFileModel, ho, hs, hn]⟩

/-- Counterexample to claim C5: at the 64-bit header with
Shoff = 0xFFFFFFFFFFFFFFFF, Shentsize = 0x40, Shnum = 5 the fields make
shoff + shentsize * shnum exceed the 64-bit range, but the program does
not fail with an Overflow error: int64(Shoff) is negative, so elf.NewFile
deterministically rejects the file ("invalid shoff") — restOk = false is
the only value faithful to this input — and CalculateElfSize fails with
that parse error and returns the sentinel 0.  No overflow-specific
failure exists among the program's failure modes. -/
theorem claim5_counterexample :
    headerFields64 srcHdr64Overflow ByteOrder.little =
      some (18446744073709551615, 64, 5) ∧
    18446744073709551616 ≤ 18446744073709551615 + 64 * 5 ∧
    i64 18446744073709551615 < 0 ∧
    newFileShoffOk 18446744073709551615 = false ∧
    calculateElfSizeE true true false srcHdr64Overflow =
      Except.error ElfErr.nfRestFailed ∧
    CalculateElfSize true true false srcHdr64Overflow = 0 := by
  refine ⟨by decide, by decide, by decide, by decide, by rfl, by decide⟩

/-- Claim C5 amended: the program has no Overflow error.  For every
in-range input whose decoded 64-bit header fields make
shoff + shentsize * shnum exceed the 64-bit range, the conversion
int64(hdr.Shoff) — performed identically by elf.NewFile and by line 169 —
is already negative, so NewFile's "invalid shoff" check fails; since the
abstracted remainder of NewFile can only succeed when that check passes,
restOk must be false, and CalculateElfSize fails with a NewFile parse
error and returns the sentinel 0 — it neither produces an Overflow error
nor returns a wrapped-around value.  (For the 32-bit layout, decoded
fields can never exceed the 64-bit range at all.) -/
theorem claim5_overflow_amended (src : List Nat) (bo : ByteOrder) (sh es n : Nat)
    (o s r : Bool)
    (hbytes : ∀ b ∈ src, b < 256)
    (hf : headerFields64 src bo = some (sh, es, n))
    (hover : 18446744073709551616 ≤ sh + es * n)
    (hfaith : r = true → newFileShoffOk sh = true) :
    i64 sh < 0 ∧ newFileShoffOk sh = false ∧ r = false ∧
    (∃ e2, calculateElfSizeE o s r src = Except.error e2) ∧
    CalculateElfSize o s r src = 0 ∧
    (∀ sh2 es2 n2, headerFields32 src bo = some (sh2, es2, n2) →
      sh2 + es2 * n2 < 18446744073709551616) := by
  obtain ⟨hsh, hes, hn⟩ := headerFields64_bounds src bo sh es n hbytes hf
  have hprod : es * n ≤ 65535 * 65535 :=
    Nat.mul_le_mul (by omega) (by omega)
  have hneg : i64 sh < 0 := by
    unfold i64 wrap64
    omega
  have hcheck : newFileShoffOk sh = false := by
    simp only [newFileShoffOk, decide_eq_false_iff_not, not_le]
    exact hneg
  have hr : r = false := by
    cases r with
    | true => exact absurd (hfaith rfl) (by simp [hcheck])
    | false => rfl
  subst hr
  obtain ⟨hfail, hzero⟩ := restOk_false_fails o s src
  refine ⟨hneg, hcheck, rfl, hfail, hzero, ?_⟩
  intro sh2 es2 n2 hf2
  obtain ⟨hs2, he2, hn2⟩ := headerFields32_bounds src bo sh2 es2 n2 hbytes hf2
  have : es2 * n2 ≤ 65535 * 65535 :=
    Nat.mul_le_mul (by omega) (by omega)
  omega

/-- Witness for the amended C5 at the all-ones-Shoff header: the check
fails, the computation errors, and the returned sentinel is 0. -/
theorem claim5_overflow_amended_witness :
    i64 18446744073709551615 < 0 ∧
    newFileShoffOk 18446744073709551615 = false ∧
    false = false ∧
    (∃ e2, calculateElfSizeE true true false srcHdr64Overflow =
      Except.error e2) ∧
    CalculateElfSize true true false srcHdr64Overflow = 0 ∧
    (∀ sh2 es2 n2,
      headerFields32 srcHdr64Overflow ByteOrder.little = some (sh2, es2, n2) →
      sh2 + es2 * n2 < 18446744073709551616) :=
  claim5_overflow_amended srcHdr64Overflow ByteOrder.little
    18446744073709551615 64 5 true true false
    (by decide) (by decide) (by decide) (by decide)

/-- Counterexample to claim C2: the 4-byte input 0,0,0,0 has a non-magic
first four bytes, yet the size computation fails with the short-read
error of elf.NewFile (io.EOF while reading the 16 identifier bytes), not
with the bad-magic (NotElf) error. -/
theorem claim2_counterexample :
    List.take 4 [0, 0, 0, 0] ≠ elfMagic ∧
    calculateElfSizeE true true true [0, 0, 0, 0] =
      Except.error ElfErr.nfShortIdent ∧
    ElfErr.nfShortIdent ≠ ElfErr.nfBadMagic ∧
    ElfErr.nfShortIdent ≠ ElfErr.badMagic := by
  refine ⟨by decide, by rfl, by decide, by decide⟩

/-- Claim C2 amended: for any input of at least 16 bytes whose first four
bytes are not 0x7f 'E' 'L' 'F', the size computation fails with the
bad-magic (NotElf) error, regardless of the remaining content of the
input (inputs shorter than 16 bytes instead fail with the identifier
read error). -/
theorem claim2_bad_magic_amended (src : List Nat) (r : Bool)
    (hlen : 16 ≤ src.length) (hmagic : src.take 4 ≠ elfMagic) :
    calculateElfSizeE true true r src = Except.error ElfErr.nfBadMagic := by
  have hm : identMagicOk (src.take 16) = false := by
    rcases Bool.eq_false_or_eq_true (identMagicOk (src.take 16)) with h | h
    · exact absurd ((identMagicOk_iff src (by omega)).mp h) hmagic
    · exact h
  simp [calculateElfSizeE, newFileModel, newFileIdent, readAt_16 src hlen, hm]

/-- Witness for the amended C2: 16 zero bytes fail with the bad-magic
error. -/
theorem claim2_bad_magic_amended_witness :
    calculateElfSizeE true true true (List.replicate 16 0) =
      Except.error ElfErr.nfBadMagic :=
  claim2_bad_magic_amended (List.replicate 16 0) true (by decide) (by decide)

/-- Counterexample to claim C6: on 16 zero bytes the class byte is 0,
which is neither 1 nor 2, yet the size computation fails with the
bad-magic error (the magic is checked first), not with the
unknown-class error. -/
theorem claim6_counterexample :
    (List.replicate 16 0).getD 4 0 ≠ 1 ∧
    (List.replicate 16 0).getD 4 0 ≠ 2 ∧
    calculateElfSizeE true true true (List.replicate 16 0) =
      Except.error ElfErr.nfBadMagic ∧
    ElfErr.nfBadMagic ≠ ElfErr.nfUnknownClass := by
  refine ⟨by decide, by decide, by rfl, by decide⟩

/-- Claim C6 amended: for every input of at least 16 bytes with a valid
ELF magic whose class byte (identifier byte 4) is neither 1 nor 2, the
size computation fails with the unknown-class error before decoding
either header layout. -/
theorem claim6_unknown_class_amended (src : List Nat) (r : Bool)
    (hlen : 16 ≤ src.length) (hmagic : src.take 4 = elfMagic)
    (h1 : src.getD 4 0 ≠ 1) (h2 : src.getD 4 0 ≠ 2) :
    calculateElfSizeE true true r src = Except.error ElfErr.nfUnknownClass := by
  have hm : identMagicOk (src.take 16) = true :=
    (identMagicOk_iff src (by omega)).mpr hmagic
  have g1 : ¬(src[4]?.getD 0 = 1) := by
    rw [← List.getD_eq_getElem?_getD]; exact h1
  have g2 : ¬(src[4]?.getD 0 = 2) := by
    rw [← List.getD_eq_getElem?_getD]; exact h2
  simp [calculateElfSizeE, newFileModel, newFileIdent, readAt_16 src hlen, hm,
    g1, g2]

/-- Witness for the amended C6: a magic-valid input with class byte 3
fails with the unknown-class error. -/
theorem claim6_unknown_class_amended_witness :
    calculateElfSizeE true true true (elfMagic ++ [3, 1, 1] ++ List.replicate 9 0) =
      Except.error ElfErr.nfUnknownClass :=
  claim6_unknown_class_amended (elfMagic ++ [3, 1, 1] ++ List.replicate 9 0) true
    (by decide) (by decide) (by decide) (by decide)

/-- Counterexample to claim C7: invoked with no path argument the
program prints a THREE-line usage message to the error stream (the three
Fprintf calls of src/main.go lines 17-19) and exits with status 1; the
claimed two-line message does not match. -/
theorem claim7_counterexample :
    goMain ["elfsize"] StatOutcome.errNotExist true true true [] =
      MainOutcome.usage (usageLines "elfsize") 1 ∧
    (usageLines "elfsize").length = 3 ∧
    (usageLines "elfsize").length ≠ 2 := by
  refine ⟨rfl, rfl, by decide⟩

/-- Claim C7 amended: when the program is invoked with no path argument,
it prints a three-line usage message to the error stream and exits with
status 1. -/
theorem claim7_usage_amended (args : List String) (st : StatOutcome)
    (o s r : Bool) (src : List Nat) (h : args.length < 2) :
    goMain args st o s r src = MainOutcome.usage (usageLines (args.getD 0 "")) 1 ∧
    (usageLines (args.getD 0 "")).length = 3 := by
  constructor
  · simp [goMain, h]
  · rfl

/-- Witness for the amended C7 with only the program name in os.Args. -/
theorem claim7_usage_amended_witness :
    goMain ["elfsize"] StatOutcome.errOther false false false [] =
      MainOutcome.usage (usageLines "elfsize") 1 :=
  (claim7_usage_amended ["elfsize"] StatOutcome.errOther false false false []
    (by decide)).1

/-- Claim C8: on every input on which decoding fails (open error, stat
error, any elf.NewFile error, identifier read error, bad magic, header
read failure, or unsupported class) CalculateElfSize returns the
sentinel value 0, which main then prints — so a decode failure is
indistinguishable from a legitimately zero-sized result. -/
theorem claim8_sentinel_zero (o s r : Bool) (src : List Nat) (e : ElfErr)
    (h : calculateElfSizeE o s r src = Except.error e) :
    CalculateElfSize o s r src = 0 := by
  by_cases ho : o = false
  · simp [CalculateElfSize, ho]
  · by_cases hs : s = false
    · simp [CalculateElfSize, ho, hs]
    · cases hn : newFileModel r src with
      | error e2 => simp [CalculateElfSize, ho, hs, hn]
      | ok cb =>
        obtain ⟨cls, bo⟩ := cb
        cases hr : readAt src 0 16 with
        | none => simp [CalculateElfSize, ho, hs, hn, hr]
        | some ident =>
          by_cases hm : identMagicOk ident = false
          · simp [CalculateElfSize, ho, hs, hn, hr, hm]
          · by_cases h2 : cls = 2
            · cases hh : headerFields64 src bo with
              | none => simp [CalculateElfSize, ho, hs, hn, hr, hm, h2, hh]
              | some f =>
                obtain ⟨sh, es, n⟩ := f
                exfalso
                simp [calculateElfSizeE, ho, hs, hn, hr, hm, h2, hh] at h
            · by_cases h1 : cls = 1
              · cases hh : headerFields32 src bo with
                | none => simp [CalculateElfSize, ho, hs, hn, hr, hm, h2, h1, hh]
                | some f =>
                  obtain ⟨sh, es, n⟩ := f
                  exfalso
                  simp [calculateElfSizeE, ho, hs, hn, hr, hm, h2, h1, hh] at h
              · simp [CalculateElfSize, ho, hs, hn, hr, hm, h2, h1]

/-- Witness for C8: a 3-byte input fails decoding and the function
returns 0. -/
theorem claim8_sentinel_zero_witness :
    CalculateElfSize true true true [1, 2, 3] = 0 :=
  claim8_sentinel_zero true true true [1, 2, 3] ElfErr.nfShortIdent rfl

/-- Claim C9: when os.Stat reports an error other than does-not-exist
(for example a permission error), os.IsNotExist is false and info is nil,
so fileExists dereferences a nil FileInfo and panics instead of
returning a boolean; main therefore panics instead of reaching its
path-error message and exit code 1. -/
theorem claim9_stat_panic (args : List String) (o s r : Bool) (src : List Nat)
    (h : 2 ≤ args.length) :
    fileExists StatOutcome.errOther = none ∧
    goMain args StatOutcome.errOther o s r src = MainOutcome.panicked := by
  refine ⟨rfl, ?_⟩
  have h2 : ¬(args.length < 2) := by omega
  simp [goMain, h2, fileExists, statPair, isNotExist, isDirCall]

/-- Witness for C9 with a two-element os.Args. -/
theorem claim9_stat_panic_witness :
    fileExists StatOutcome.errOther = none ∧
    goMain ["elfsize", "x"] StatOutcome.errOther true true true [] =
      MainOutcome.panicked :=
  claim9_stat_panic ["elfsize", "x"] true true true [] (by decide)

/-- Claim C10: for every successfully parsed ELF file and every section
name not present in it, GetSectionData returns (nil, nil) and
GetSectionOffsetAndLength returns (0, 0, nil): the missing section is
reported as success with empty/zero values — exactly the values an empty
section at offset 0 would produce. -/
theorem claim10_missing_section (f : ElfFileModel) (name : String)
    (h : sectionByName f name = none) :
    GetSectionData (Except.ok f) name = (none, none) ∧
    GetSectionOffsetAndLength (Except.ok f) name = (0, 0, none) := by
  constructor <;> simp [GetSectionData, GetSectionOffsetAndLength, h]

/-- Witness for C10: a file with no sections and the name ".dynamic". -/
theorem claim10_missing_section_witness :
    GetSectionData (Except.ok ⟨[]⟩) ".dynamic" = (none, none) ∧
    GetSectionOffsetAndLength (Except.ok ⟨[]⟩) ".dynamic" = (0, 0, none) :=
  claim10_missing_section ⟨[]⟩ ".dynamic" rfl
